import Mathlib

/-!
Verification of the array-sum PLONKish example circuit
(src/array_sum_example.rs) against its specification.

The circuit side (configure, assign_row, expose_public, synthesize,
make_circuit) is translated directly from the Rust source.  The
witness/constraint checker (the mock prover) is an external library
component; it is modelled from the specification, section 4.6.
-/

namespace ArraySum

/-- A witness value: a known field element or the unknown value
(the Value type of the circuit library). -/
abbrev Value (F : Type) := Option F

/-- A known field element. -/
def Value.known {F : Type} (x : F) : Value F := some x

/-- The unknown value, used when synthesizing without witnesses. -/
def Value.unknown {F : Type} : Value F := none

/-- Addition on values: unknown absorbs. -/
def Value.add {F : Type} [Add F] : Value F → Value F → Value F
  | some a, some b => some (a + b)
  | _, _ => none

/-- Subtraction on values: unknown absorbs. -/
def Value.sub {F : Type} [Sub F] : Value F → Value F → Value F
  | some a, some b => some (a - b)
  | _, _ => none

/-- Multiplication on values: unknown absorbs. -/
def Value.mul {F : Type} [Mul F] : Value F → Value F → Value F
  | some a, some b => some (a * b)
  | _, _ => none

/-- A column of the grid: one of the three advice columns declared in
configure (index 0 is col_a, index 1 is col_b alias col_x, index 2 is
col_accum), or the single instance column. -/
inductive Col where
  | advice : Fin 3 → Col
  | inst : Col
deriving DecidableEq

/-- A cell of the grid: a column together with an absolute row index. -/
structure Cell where
  col : Col
  row : Nat
deriving DecidableEq

/-- The error type of the circuit library, restricted to the variant the
source constructs (Error::Synthesis). -/
inductive Error where
  | Synthesis : Error
deriving DecidableEq

/-- The state built up by the region closure of assign_row: the list of
rows at which the selector was enabled (in call order, duplicates kept),
the assignment events of the three advice columns (row, value) in call
order, the running accumulator value, and the out_cell result variable. -/
structure RegionState (F : Type) where
  enabled : List Nat
  assignA : List (Nat × Value F)
  assignX : List (Nat × Value F)
  assignAccum : List (Nat × Value F)
  accumValue : Value F
  outCell : Except Error Cell

/-- One iteration of the loop in assign_row at a given row: enable the
selector, assign the running accumulator into col_a, assign the input
into col_x, add the input to the accumulator, assign the new accumulator
into col_accum and record its cell as out_cell. -/
def assignRowStep {F : Type} [Add F] (xs : Nat → Value F) (st : RegionState F)
    (row : Nat) : RegionState F :=
  { enabled := st.enabled ++ [row]
    assignA := st.assignA ++ [(row, st.accumValue)]
    assignX := st.assignX ++ [(row, xs row)]
    assignAccum := st.assignAccum ++ [(row, Value.add st.accumValue (xs row))]
    accumValue := Value.add st.accumValue (xs row)
    outCell := Except.ok ⟨Col.advice 2, row⟩ }

/-- FiboChip::assign_row: the selector is first enabled at row 0 outside
the loop, out_cell starts as Err(Error::Synthesis), the accumulator
starts at the additive identity, and the loop body runs for rows
0..N-1. -/
def assignRow {F : Type} [Add F] [Zero F] (N : Nat) (xs : Nat → Value F) :
    RegionState F :=
  (List.range N).foldl (assignRowStep xs)
    { enabled := [0]
      assignA := []
      assignX := []
      assignAccum := []
      accumValue := Value.known 0
      outCell := Except.error Error.Synthesis }

/-- The variant of assign_row considered by the specification: identical
except that the duplicate selector activation at row 0 before the loop
is removed, so each row is enabled exactly once, inside the loop. -/
def assignRowOnce {F : Type} [Add F] [Zero F] (N : Nat) (xs : Nat → Value F) :
    RegionState F :=
  (List.range N).foldl (assignRowStep xs)
    { enabled := []
      assignA := []
      assignX := []
      assignAccum := []
      accumValue := Value.known 0
      outCell := Except.error Error.Synthesis }

/-- The assignment-event list of an advice column, by column index. -/
def RegionState.adviceCol {F : Type} (st : RegionState F) : Fin 3 →
    List (Nat × Value F)
  | 0 => st.assignA
  | 1 => st.assignX
  | 2 => st.assignAccum

/-- Look up the value most recently assigned to a given row in an
assignment-event list; none when the row was never assigned. -/
def lookupAssign {F : Type} (l : List (Nat × Value F)) (row : Nat) :
    Option (Value F) :=
  (l.reverse.find? fun p => p.1 == row).map Prod.snd

/-- The advice grid resulting from a region state: an unassigned cell
reads as the unknown value. -/
def RegionState.advice {F : Type} (st : RegionState F) (i : Fin 3) (row : Nat) :
    Value F :=
  (lookupAssign (st.adviceCol i) row).getD Value.unknown

/-- Whether the selector is active at a row: it was enabled there at
least once. -/
def RegionState.selOn {F : Type} (st : RegionState F) (row : Nat) : Bool :=
  decide (row ∈ st.enabled)

/-- The synthesized grid: the region state produced by assign_row,
together with the equality constraints registered during synthesis. -/
structure SynthGrid (F : Type) where
  region : RegionState F
  eqConstraints : List (Cell × Cell)

/-- FiboChip::expose_public: registers an equality constraint between an
assigned cell and the instance column at the given row. -/
def exposePublic (cell : Cell) (row : Nat) : Cell × Cell :=
  (cell, ⟨Col.inst, row⟩)

/-- ArraySumCircuit::synthesize: run assign_row, propagate its error if
any, then expose the returned cell against instance row N-1. -/
def synthesize {F : Type} [Add F] [Zero F] (N : Nat) (xs : Nat → Value F) :
    Except Error (SynthGrid F) :=
  let st := assignRow N xs
  match st.outCell with
  | Except.error e => Except.error e
  | Except.ok c => Except.ok { region := st, eqConstraints := [exposePublic c (N - 1)] }

/-- ArraySumCircuit::without_witnesses: every private input is the
unknown value. -/
def withoutWitnesses (F : Type) : Nat → Value F := fun _ => Value.unknown

/-- The public-input vector built by make_circuit: N rows of the
additive identity with row N-1 overwritten by out.  The index
expression outs[N-1] panics out of bounds when N = 0, modelled as
none. -/
def makeOuts {F : Type} [Zero F] (N : Nat) (out : F) : Option (List F) :=
  let outs := List.replicate N (0 : F)
  if N - 1 < outs.length then some (outs.set (N - 1) out) else none

/-- The name of a gate.  The reference circuit declares a single gate,
named add. -/
inductive GateName where
  | add : GateName
deriving DecidableEq

/-- Modelled from the spec: the polynomial expression tree over which
gates are written (section 9: literal, cell query, selector query, add,
sub, mul); this circuit only queries the current row (rotation 0). -/
inductive Expr (F : Type) where
  | const : F → Expr F
  | queryAdvice : Fin 3 → Expr F
  | querySelector : Expr F
  | add : Expr F → Expr F → Expr F
  | sub : Expr F → Expr F → Expr F
  | mul : Expr F → Expr F → Expr F

/-- Modelled from the spec: evaluation of a gate expression at a row of
the grid; a selector query reads 1 where active and 0 where inactive,
and the unknown value propagates through arithmetic. -/
def Expr.eval {F : Type} [Add F] [Sub F] [Mul F] [Zero F] [One F]
    (advice : Fin 3 → Nat → Value F) (sel : Nat → Bool) (row : Nat) :
    Expr F → Value F
  | Expr.const c => Value.known c
  | Expr.queryAdvice i => advice i row
  | Expr.querySelector => Value.known (if sel row then 1 else 0)
  | Expr.add e1 e2 => Value.add (e1.eval advice sel row) (e2.eval advice sel row)
  | Expr.sub e1 e2 => Value.sub (e1.eval advice sel row) (e2.eval advice sel row)
  | Expr.mul e1 e2 => Value.mul (e1.eval advice sel row) (e2.eval advice sel row)

/-- The expression returned by the create_gate closure of configure:
s * (a + b - c) with all three advice queries at the current row. -/
def addGate (F : Type) : Expr F :=
  Expr.mul Expr.querySelector
    (Expr.sub (Expr.add (Expr.queryAdvice 0) (Expr.queryAdvice 1))
      (Expr.queryAdvice 2))

/-- The gate registry of the configured circuit: the single gate named
add. -/
def gates (F : Type) : List (GateName × Expr F) :=
  [(GateName.add, addGate F)]

/-- A violation reported by the checker: a gate violation at a row, or
an equality violation between two cells. -/
inductive Violation where
  | gate : GateName → Nat → Violation
  | equality : Cell → Cell → Violation
deriving DecidableEq

/-- Modelled from the spec (section 4.6, steps 1 and 2): for one gate,
walk every row in range; where the guarding selector is inactive skip;
where it is active evaluate the expression, reporting a violation when
the result is not the additive identity or when an unknown value was
read. -/
def gateViolations {F : Type} [Add F] [Sub F] [Mul F] [Zero F] [One F]
    [DecidableEq F] (name : GateName) (e : Expr F) (numRows : Nat)
    (advice : Fin 3 → Nat → Value F) (sel : Nat → Bool) : List Violation :=
  (List.range numRows).filterMap fun row =>
    if sel row then
      match e.eval advice sel row with
      | some v => if v = 0 then none else some (Violation.gate name row)
      | none => some (Violation.gate name row)
    else none

/-- Modelled from the spec: gate checking over every declared gate. -/
def checkGates {F : Type} [Add F] [Sub F] [Mul F] [Zero F] [One F]
    [DecidableEq F] (numRows : Nat) (advice : Fin 3 → Nat → Value F)
    (sel : Nat → Bool) : List Violation :=
  (gates F).foldr (fun g acc => gateViolations g.1 g.2 numRows advice sel ++ acc) []

/-- Modelled from the spec (section 4.6, step 3): resolve a cell of an
equality constraint, consulting the public-input vector when the cell
lies in the instance column. -/
def resolveCell {F : Type} (advice : Fin 3 → Nat → Value F) (pubs : List F) :
    Cell → Value F
  | ⟨Col.advice i, row⟩ => advice i row
  | ⟨Col.inst, row⟩ =>
      match pubs[row]? with
      | some v => Value.known v
      | none => Value.unknown

/-- Modelled from the spec (section 4.6, step 3): every declared
equality constraint is resolved on both sides and compared; a mismatch
or an unknown side is reported as an equality violation. -/
def checkEqualities {F : Type} [DecidableEq F] (advice : Fin 3 → Nat → Value F)
    (pubs : List F) (eqs : List (Cell × Cell)) : List Violation :=
  eqs.filterMap fun p =>
    match resolveCell advice pubs p.1, resolveCell advice pubs p.2 with
    | some v1, some v2 =>
        if v1 = v2 then none else some (Violation.equality p.1 p.2)
    | _, _ => some (Violation.equality p.1 p.2)

/-- Modelled from the spec (section 4.6, step 4): the checker aggregates
gate violations and equality violations; the witness satisfies the
circuit exactly when the aggregate is empty. -/
def check {F : Type} [Add F] [Sub F] [Mul F] [Zero F] [One F] [DecidableEq F]
    (numRows : Nat) (grid : SynthGrid F) (pubs : List F) : List Violation :=
  checkGates numRows grid.region.advice grid.region.selOn ++
    checkEqualities grid.region.advice pubs grid.eqConstraints

/-- Synthesize the circuit on known private inputs and run the checker
on the resulting grid with the given public-input vector (the row range
of the grid is the N region rows). -/
def runChecker {F : Type} [Add F] [Sub F] [Mul F] [Zero F] [One F]
    [DecidableEq F] (N : Nat) (xs : Nat → F) (pubs : List F) :
    Except Error (List Violation) :=
  match synthesize N (fun i => Value.known (xs i)) with
  | Except.error e => Except.error e
  | Except.ok grid => Except.ok (check N grid pubs)

/-- The Pasta base field modulus used by the source (pasta::Fp). -/
def pPallas : Nat :=
  28948022309329048855892746252171976963363056481941560715954676764349967630337

/-- The concrete field of the source circuit. -/
abbrev Fp := ZMod pPallas

/-- make_circuit: map the u64 inputs into the field as known witness
values and build the public-input vector; none models the out-of-bounds
panic on outs[N-1] when N = 0. -/
def makeCircuit (N : Nat) (xs : Nat → Nat) (out : Nat) :
    Option ((Nat → Value Fp) × List Fp) :=
  let circuitXs : Nat → Value Fp := fun i => Value.known ((xs i : Nat) : Fp)
  match makeOuts N ((out : Nat) : Fp) with
  | some outs => some (circuitXs, outs)
  | none => none

/-- The running accumulator value of assign_row before a given row. -/
def accumBefore {F : Type} [Add F] [Zero F] (xs : Nat → Value F) : Nat → Value F
  | 0 => Value.known 0
  | n + 1 => Value.add (accumBefore xs n) (xs n)

/-- The running accumulator on known inputs. -/
def accumF {F : Type} [Add F] [Zero F] (xs : Nat → F) : Nat → F
  | 0 => 0
  | n + 1 => accumF xs n + xs n

theorem accumBefore_known {F : Type} [Add F] [Zero F] (xs : Nat → F) (n : Nat) :
    accumBefore (fun j => Value.known (xs j)) n = Value.known (accumF xs n) := by
  induction n with
  | zero => rfl
  | succ m ih => unfold accumBefore; rw [ih]; rfl

theorem accumF_eq_sum {F : Type} [AddCommMonoid F] (xs : Nat → F) (n : Nat) :
    accumF xs n = ∑ i ∈ Finset.range n, xs i := by
  induction n with
  | zero => rfl
  | succ m ih => rw [Finset.sum_range_succ, ← ih]; rfl

theorem assignRow_closed {F : Type} [Add F] [Zero F] (xs : Nat → Value F)
    (N : Nat) :
    assignRow N xs =
      { enabled := 0 :: List.range N
        assignA := (List.range N).map fun i => (i, accumBefore xs i)
        assignX := (List.range N).map fun i => (i, xs i)
        assignAccum := (List.range N).map fun i => (i, accumBefore xs (i + 1))
        accumValue := accumBefore xs N
        outCell := if N = 0 then Except.error Error.Synthesis
                   else Except.ok ⟨Col.advice 2, N - 1⟩ } := by
  induction N with
  | zero => rfl
  | succ n ih =>
      have h : assignRow (n + 1) xs = assignRowStep xs (assignRow n xs) n := by
        unfold assignRow
        rw [List.range_succ, List.foldl_append, List.foldl_cons, List.foldl_nil]
      rw [h, ih]
      simp [assignRowStep, List.range_succ, accumBefore]

theorem assignRowOnce_closed {F : Type} [Add F] [Zero F] (xs : Nat → Value F)
    (N : Nat) :
    assignRowOnce N xs =
      { enabled := List.range N
        assignA := (List.range N).map fun i => (i, accumBefore xs i)
        assignX := (List.range N).map fun i => (i, xs i)
        assignAccum := (List.range N).map fun i => (i, accumBefore xs (i + 1))
        accumValue := accumBefore xs N
        outCell := if N = 0 then Except.error Error.Synthesis
                   else Except.ok ⟨Col.advice 2, N - 1⟩ } := by
  induction N with
  | zero => rfl
  | succ n ih =>
      have h : assignRowOnce (n + 1) xs = assignRowStep xs (assignRowOnce n xs) n := by
        unfold assignRowOnce
        rw [List.range_succ, List.foldl_append, List.foldl_cons, List.foldl_nil]
      rw [h, ih]
      simp [assignRowStep, List.range_succ, accumBefore]

theorem lookupAssign_map_range {F : Type} (f : Nat → Value F) (N row : Nat) :
    lookupAssign ((List.range N).map fun i => (i, f i)) row =
      if row < N then some (f row) else none := by
  induction N with
  | zero => simp [lookupAssign]
  | succ n ih =>
      unfold lookupAssign at ih ⊢
      have hrev : (((List.range (n + 1)).map fun i => (i, f i)).reverse
          : List (Nat × Value F))
          = (n, f n) :: ((List.range n).map fun i => (i, f i)).reverse := by
        rw [List.range_succ]
        simp
      rw [hrev]
      by_cases hr : n = row
      · subst hr
        rw [List.find?_cons_of_pos _ (by simp)]
        simp
      · rw [List.find?_cons_of_neg _ (by simp [hr]), ih]
        by_cases hlt : row < n
        · rw [if_pos hlt, if_pos (by omega)]
        · rw [if_neg hlt, if_neg (by omega)]

theorem advice_assignRow_a {F : Type} [Add F] [Zero F] (N : Nat)
    (xs : Nat → Value F) (row : Nat) :
    (assignRow N xs).advice 0 row =
      if row < N then accumBefore xs row else Value.unknown := by
  simp only [RegionState.advice, RegionState.adviceCol, assignRow_closed,
    lookupAssign_map_range]
  by_cases h : row < N
  · rw [if_pos h, if_pos h]
    rfl
  · rw [if_neg h, if_neg h]
    rfl

theorem advice_assignRow_x {F : Type} [Add F] [Zero F] (N : Nat)
    (xs : Nat → Value F) (row : Nat) :
    (assignRow N xs).advice 1 row =
      if row < N then xs row else Value.unknown := by
  simp only [RegionState.advice, RegionState.adviceCol, assignRow_closed,
    lookupAssign_map_range]
  by_cases h : row < N
  · rw [if_pos h, if_pos h]
    rfl
  · rw [if_neg h, if_neg h]
    rfl

theorem advice_assignRow_accum {F : Type} [Add F] [Zero F] (N : Nat)
    (xs : Nat → Value F) (row : Nat) :
    (assignRow N xs).advice 2 row =
      if row < N then accumBefore xs (row + 1) else Value.unknown := by
  simp only [RegionState.advice, RegionState.adviceCol, assignRow_closed,
    lookupAssign_map_range]
  by_cases h : row < N
  · rw [if_pos h, if_pos h]
    rfl
  · rw [if_neg h, if_neg h]
    rfl

theorem selOn_assignRow {F : Type} [Add F] [Zero F] (N : Nat)
    (xs : Nat → Value F) (row : Nat) :
    (assignRow N xs).selOn row = decide (row = 0 ∨ row < N) := by
  simp only [RegionState.selOn, assignRow_closed]
  rw [decide_eq_decide]
  simp [List.mem_range]

theorem selOn_assignRowOnce {F : Type} [Add F] [Zero F] (N : Nat)
    (xs : Nat → Value F) (row : Nat) :
    (assignRowOnce N xs).selOn row = decide (row < N) := by
  simp only [RegionState.selOn, assignRowOnce_closed]
  rw [decide_eq_decide]
  simp [List.mem_range]

theorem outCell_assignRow {F : Type} [Add F] [Zero F] (N : Nat) (hN : 1 ≤ N)
    (xs : Nat → Value F) :
    (assignRow N xs).outCell = Except.ok ⟨Col.advice 2, N - 1⟩ := by
  rw [assignRow_closed]
  exact if_neg (by omega)

theorem synthesize_ok {F : Type} [Add F] [Zero F] (N : Nat) (hN : 1 ≤ N)
    (xs : Nat → Value F) :
    synthesize N xs = Except.ok
      { region := assignRow N xs
        eqConstraints := [(⟨Col.advice 2, N - 1⟩, ⟨Col.inst, N - 1⟩)] } := by
  simp only [synthesize, outCell_assignRow N hN xs, exposePublic]

theorem makeOuts_some {F : Type} [Zero F] (N : Nat) (hN : 1 ≤ N) (out : F) :
    makeOuts N out = some ((List.replicate N (0 : F)).set (N - 1) out) := by
  unfold makeOuts
  rw [if_pos]
  simp only [List.length_replicate]
  omega

theorem makeOuts_last {F : Type} [Zero F] {N : Nat} {out : F} {pubs : List F}
    (h : makeOuts N out = some pubs) : pubs[N - 1]? = some out := by
  unfold makeOuts at h
  by_cases hlt : N - 1 < (List.replicate N (0 : F)).length
  · rw [if_pos hlt] at h
    injection h with h2
    rw [← h2]
    exact List.getElem?_set_self hlt
  · rw [if_neg hlt] at h
    exact absurd h (by simp)

theorem eval_addGate {F : Type} [CommRing F] (advice : Fin 3 → Nat → Value F)
    (sel : Nat → Bool) (row : Nat) (a b c : F)
    (ha : advice 0 row = Value.known a) (hb : advice 1 row = Value.known b)
    (hc : advice 2 row = Value.known c) :
    (addGate F).eval advice sel row =
      Value.known ((if sel row then 1 else 0) * (a + b - c)) := by
  simp [addGate, Expr.eval, ha, hb, hc, Value.add, Value.sub, Value.mul,
    Value.known]

theorem checkGates_known {F : Type} [CommRing F] [DecidableEq F] (N : Nat)
    (xs : Nat → F) :
    checkGates N ((assignRow N fun j => Value.known (xs j)).advice)
      ((assignRow N fun j => Value.known (xs j)).selOn) = [] := by
  unfold checkGates gates
  rw [List.foldr_cons, List.foldr_nil, List.append_nil]
  unfold gateViolations
  rw [List.filterMap_eq_nil_iff]
  intro row hrow
  rw [List.mem_range] at hrow
  have h0 := advice_assignRow_a N (fun j => Value.known (xs j)) row
  rw [if_pos hrow, accumBefore_known] at h0
  have h1 := advice_assignRow_x N (fun j => Value.known (xs j)) row
  rw [if_pos hrow] at h1
  have h2 := advice_assignRow_accum N (fun j => Value.known (xs j)) row
  rw [if_pos hrow, accumBefore_known] at h2
  have he := eval_addGate _ ((assignRow N fun j => Value.known (xs j)).selOn)
    row _ _ _ h0 h1 h2
  have hz : (if (assignRow N fun j => Value.known (xs j)).selOn row then (1 : F)
      else 0) * (accumF xs row + xs row - accumF xs (row + 1)) = 0 := by
    rw [show accumF xs (row + 1) = accumF xs row + xs row from rfl]
    ring
  rw [hz] at he
  rw [he]
  simp [Value.known]

theorem resolveCell_advice {F : Type} (advice : Fin 3 → Nat → Value F)
    (pubs : List F) (i : Fin 3) (row : Nat) :
    resolveCell advice pubs ⟨Col.advice i, row⟩ = advice i row := rfl

theorem resolveCell_inst {F : Type} (advice : Fin 3 → Nat → Value F)
    (pubs : List F) (row : Nat) :
    resolveCell advice pubs ⟨Col.inst, row⟩ =
      match pubs[row]? with
      | some v => Value.known v
      | none => Value.unknown := rfl

theorem checkEqualities_synth {F : Type} [CommRing F] [DecidableEq F] (N : Nat)
    (hN : 1 ≤ N) (xs : Nat → F) (pubs : List F) (pv : F)
    (hpv : pubs[N - 1]? = some pv) :
    checkEqualities ((assignRow N fun j => Value.known (xs j)).advice) pubs
      [(⟨Col.advice 2, N - 1⟩, ⟨Col.inst, N - 1⟩)] =
      if accumF xs N = pv then []
      else [Violation.equality ⟨Col.advice 2, N - 1⟩ ⟨Col.inst, N - 1⟩] := by
  have h2 : ((assignRow N fun j => Value.known (xs j)).advice) 2 (N - 1) =
      Value.known (accumF xs N) := by
    have h := advice_assignRow_accum N (fun j => Value.known (xs j)) (N - 1)
    rw [if_pos (by omega), show N - 1 + 1 = N from by omega,
      accumBefore_known] at h
    exact h
  have hi : resolveCell ((assignRow N fun j => Value.known (xs j)).advice) pubs
      ⟨Col.inst, N - 1⟩ = Value.known pv := by
    rw [resolveCell_inst, hpv]
  unfold checkEqualities
  simp only [List.filterMap_cons, List.filterMap_nil, resolveCell_advice, h2, hi]
  unfold Value.known
  by_cases hc : accumF xs N = pv
  · rw [if_pos hc]
    simp [hc]
  · rw [if_neg hc]
    simp [hc]

theorem runChecker_verdict {F : Type} [CommRing F] [DecidableEq F] (N : Nat)
    (hN : 1 ≤ N) (xs : Nat → F) (pubs : List F) (pv : F)
    (hpv : pubs[N - 1]? = some pv) :
    runChecker N xs pubs = Except.ok
      (if accumF xs N = pv then []
       else [Violation.equality ⟨Col.advice 2, N - 1⟩ ⟨Col.inst, N - 1⟩]) := by
  unfold runChecker
  rw [synthesize_ok N hN]
  show Except.ok (check N _ pubs) = _
  unfold check
  rw [checkGates_known, checkEqualities_synth N hN xs pubs pv hpv,
    List.nil_append]

theorem map_fst_pairs {F : Type} (f : Nat → Value F) (N : Nat) :
    ((List.range N).map fun i => (i, f i)).map Prod.fst = List.range N := by
  induction N with
  | zero => rfl
  | succ n ih =>
      rw [List.range_succ]
      simp [ih]

/-- The concrete private-input array of the test: x = [1, 2, 3, 10] over
the Pasta base field. -/
def xsTest : Nat → Fp := fun i => ([1, 2, 3, 10] : List Fp).getD i 0

/-- Claim C1: for every array length N of at least 1 and every array of
N field elements, synthesizing the circuit on those private inputs and
running the checker against the public-input vector built by
make_circuit, whose row N-1 holds the sum of the inputs and whose other
rows hold the additive identity, reports success with no violations. -/
theorem C1_checker_correct (F : Type) [CommRing F] [DecidableEq F] (N : Nat)
    (hN : 1 ≤ N) (xs : Nat → F) (pubs : List F)
    (hpubs : makeOuts N (∑ i ∈ Finset.range N, xs i) = some pubs) :
    runChecker N xs pubs = Except.ok [] := by
  have hpv := makeOuts_last hpubs
  rw [runChecker_verdict N hN xs pubs _ hpv]
  rw [if_pos (accumF_eq_sum xs N)]

/-- Witness for claim C1, the concrete scenario of the test: inputs
[1, 2, 3, 10], public vector [0, 0, 0, 16]; the checker reports
success. -/
theorem C1_checker_correct_witness :
    runChecker 4 xsTest [0, 0, 0, 16] = Except.ok [] :=
  C1_checker_correct Fp 4 (by decide) xsTest [0, 0, 0, 16] (by decide)

/-- Claim C2: for every array of N field elements and every public value
different from the sum of the array, the checker on the grid synthesized
against that public value reports exactly one violation, an equality
violation between the exposed accumulator cell at row N-1 and instance
row N-1; in particular the gates contribute no violation. -/
theorem C2_checker_sound (F : Type) [CommRing F] [DecidableEq F] (N : Nat)
    (hN : 1 ≤ N) (xs : Nat → F) (out2 : F)
    (hne : out2 ≠ ∑ i ∈ Finset.range N, xs i) (pubs : List F)
    (hpubs : makeOuts N out2 = some pubs) :
    runChecker N xs pubs = Except.ok
      [Violation.equality ⟨Col.advice 2, N - 1⟩ ⟨Col.inst, N - 1⟩] := by
  have hpv := makeOuts_last hpubs
  rw [runChecker_verdict N hN xs pubs _ hpv]
  rw [if_neg]
  rw [accumF_eq_sum]
  exact fun h => hne h.symm

/-- Witness for claim C2, the mutation scenario of the spec: inputs
[1, 2, 3, 10] against public value 15; the checker reports the equality
violation on the exposed cell at public row 3. -/
theorem C2_checker_sound_witness :
    runChecker 4 xsTest [0, 0, 0, 15] = Except.ok
      [Violation.equality ⟨Col.advice 2, 3⟩ ⟨Col.inst, 3⟩] :=
  C2_checker_sound Fp 4 (by decide) xsTest 15 (by decide) [0, 0, 0, 15]
    (by decide)

/-- Claim C3: the gate registry holds the single gate named add with
polynomial s * (a + b - c) over current-row queries, and at a row whose
three advice cells hold known values the gate evaluates to the additive
identity exactly when the selector is inactive there or a + b - c is
the additive identity. -/
theorem C3_add_gate (F : Type) [CommRing F] (advice : Fin 3 → Nat → Value F)
    (sel : Nat → Bool) (row : Nat) (a b c : F)
    (ha : advice 0 row = Value.known a) (hb : advice 1 row = Value.known b)
    (hc : advice 2 row = Value.known c) :
    gates F = [(GateName.add, addGate F)] ∧
    ((addGate F).eval advice sel row = Value.known 0 ↔
      (sel row = false ∨ a + b - c = 0)) := by
  refine ⟨rfl, ?_⟩
  rw [eval_addGate advice sel row a b c ha hb hc]
  unfold Value.known
  rw [Option.some_inj]
  by_cases hs : sel row
  · rw [if_pos hs, one_mul]
    simp [hs]
  · rw [if_neg hs, zero_mul]
    simp [hs]

/-- A concrete advice assignment used as witness data: columns hold 1,
2 and 3 at every row. -/
def adviceW : Fin 3 → Nat → Value Fp :=
  fun i _ => Value.known (([1, 2, 3] : List Fp).getD i.val 0)

/-- A concrete always-active selector used as witness data. -/
def selW : Nat → Bool := fun _ => true

/-- Witness for claim C3 at row 0 with known advice values 1, 2, 3 and
an active selector. -/
theorem C3_add_gate_witness :
    gates Fp = [(GateName.add, addGate Fp)] ∧
    ((addGate Fp).eval adviceW selW 0 = Value.known 0 ↔
      (selW 0 = false ∨ (1 : Fp) + 2 - 3 = 0)) :=
  C3_add_gate Fp adviceW selW 0 1 2 3 (by decide) (by decide) (by decide)

/-- Counterexample to claim C4: on the two-element array [1, 1], no
equality constraint between the accumulator cell of row 0 and the col_a
cell of row 1 (in either order) is declared by synthesis. -/
theorem C4_counterexample :
    (synthesize 2 fun _ => Value.known (1 : Fp)).map (fun g =>
      decide ((⟨Col.advice 2, 0⟩, ⟨Col.advice 0, 1⟩) ∈ g.eqConstraints ∨
        (⟨Col.advice 0, 1⟩, ⟨Col.advice 2, 0⟩) ∈ g.eqConstraints)) =
      Except.ok false := rfl

/-- Claim C4 amended: synthesis carries the running accumulator from row
i to row i+1 by re-assigning the same value, not by a copy constraint:
the value assigned to col_a at row i+1 equals the value assigned to
col_accum at row i, while the equality constraints declared by synthesis
consist solely of the instance binding and contain no pair linking those
two cells. -/
theorem C4_reassign_not_copy (F : Type) [CommRing F] (N : Nat)
    (xs : Nat → Value F) (i : Nat) (hi : i + 1 < N) :
    (assignRow N xs).advice 0 (i + 1) = (assignRow N xs).advice 2 i ∧
    ∀ grid : SynthGrid F, synthesize N xs = Except.ok grid →
      grid.eqConstraints = [(⟨Col.advice 2, N - 1⟩, ⟨Col.inst, N - 1⟩)] ∧
      (⟨Col.advice 2, i⟩, ⟨Col.advice 0, i + 1⟩) ∉ grid.eqConstraints ∧
      (⟨Col.advice 0, i + 1⟩, ⟨Col.advice 2, i⟩) ∉ grid.eqConstraints := by
  constructor
  · rw [advice_assignRow_a, advice_assignRow_accum, if_pos hi,
      if_pos (by omega)]
  · intro grid hg
    rw [synthesize_ok N (by omega) xs] at hg
    injection hg with hg2
    subst hg2
    refine ⟨rfl, ?_, ?_⟩ <;> simp

/-- Witness for the amended claim C4 at N = 2, i = 0 on the array
[1, 1]. -/
theorem C4_reassign_not_copy_witness :
    (assignRow 2 fun _ => Value.known (1 : Fp)).advice 0 1 =
      (assignRow 2 fun _ => Value.known (1 : Fp)).advice 2 0 ∧
    ∀ grid : SynthGrid Fp,
      (synthesize 2 fun _ => Value.known (1 : Fp)) = Except.ok grid →
      grid.eqConstraints = [(⟨Col.advice 2, 1⟩, ⟨Col.inst, 1⟩)] ∧
      (⟨Col.advice 2, 0⟩, ⟨Col.advice 0, 1⟩) ∉ grid.eqConstraints ∧
      (⟨Col.advice 0, 1⟩, ⟨Col.advice 2, 0⟩) ∉ grid.eqConstraints :=
  C4_reassign_not_copy Fp 2 (fun _ => Value.known (1 : Fp)) 0 (by decide)

/-- Claim C5: assign_row returns the accumulator-column cell of the last
row, that cell holds the sum of the inputs, and synthesize registers
exactly one instance binding, between that cell and instance row N-1. -/
theorem C5_out_cell_binding (F : Type) [CommRing F] (N : Nat) (hN : 1 ≤ N)
    (xs : Nat → F) :
    (assignRow N fun j => Value.known (xs j)).outCell =
      Except.ok ⟨Col.advice 2, N - 1⟩ ∧
    (assignRow N fun j => Value.known (xs j)).advice 2 (N - 1) =
      Value.known (∑ i ∈ Finset.range N, xs i) ∧
    (synthesize N fun j => Value.known (xs j)) = Except.ok
      { region := assignRow N fun j => Value.known (xs j)
        eqConstraints := [(⟨Col.advice 2, N - 1⟩, ⟨Col.inst, N - 1⟩)] } := by
  refine ⟨outCell_assignRow N hN _, ?_, synthesize_ok N hN _⟩
  rw [advice_assignRow_accum, if_pos (by omega),
    show N - 1 + 1 = N from by omega, accumBefore_known, accumF_eq_sum]

/-- Witness for claim C5 on the concrete test array [1, 2, 3, 10]. -/
theorem C5_out_cell_binding_witness :
    (assignRow 4 fun j => Value.known (xsTest j)).outCell =
      Except.ok ⟨Col.advice 2, 3⟩ ∧
    (assignRow 4 fun j => Value.known (xsTest j)).advice 2 3 =
      Value.known (∑ i ∈ Finset.range 4, xsTest i) ∧
    (synthesize 4 fun j => Value.known (xsTest j)) = Except.ok
      { region := assignRow 4 fun j => Value.known (xsTest j)
        eqConstraints := [(⟨Col.advice 2, 3⟩, ⟨Col.inst, 3⟩)] } :=
  C5_out_cell_binding Fp 4 (by decide) xsTest

/-- Claim C6: satisfiability depends only on public row N-1: two
public-input vectors of length N that agree at row N-1 produce the same
checker verdict on the grid synthesized from the same private inputs. -/
theorem C6_public_padding (F : Type) [CommRing F] [DecidableEq F] (N : Nat)
    (hN : 1 ≤ N) (xs : Nat → F) (pubs1 pubs2 : List F)
    (h1 : pubs1.length = N) (h2 : pubs2.length = N)
    (hagree : pubs1[N - 1]? = pubs2[N - 1]?) :
    runChecker N xs pubs1 = runChecker N xs pubs2 := by
  cases hv : pubs1[N - 1]? with
  | none =>
      rw [List.getElem?_eq_none_iff] at hv
      omega
  | some v =>
      have hv2 : pubs2[N - 1]? = some v := by rw [← hagree]; exact hv
      rw [runChecker_verdict N hN xs pubs1 v hv,
        runChecker_verdict N hN xs pubs2 v hv2]

/-- Witness for claim C6: the padding rows [0, 0, 0] and [7, 8, 9] give
the same verdict on the test array. -/
theorem C6_public_padding_witness :
    runChecker 4 xsTest [0, 0, 0, 16] = runChecker 4 xsTest [7, 8, 9, 16] :=
  C6_public_padding Fp 4 (by decide) xsTest [0, 0, 0, 16] [7, 8, 9, 16]
    (by decide) (by decide) (by decide)

/-- Claim C7: the boundary case N = 1 with x = [5] and public value 5 at
row 0 satisfies the checker, and in every synthesis the value assigned
to col_a at row 0 is the known additive identity, never unknown. -/
theorem C7_boundary (F : Type) [CommRing F] (N : Nat) (hN : 1 ≤ N)
    (xs : Nat → Value F) :
    runChecker 1 (fun _ => (5 : Fp)) [5] = Except.ok [] ∧
    lookupAssign (assignRow N xs).assignA 0 = some (Value.known 0) := by
  constructor
  · rw [runChecker_verdict 1 (by omega) _ [5] 5 (by decide)]
    rw [if_pos (by decide)]
  · simp only [assignRow_closed, lookupAssign_map_range]
    rw [if_pos (by omega)]
    rfl

/-- Witness for claim C7 at N = 1 with all-unknown private inputs. -/
theorem C7_boundary_witness :
    runChecker 1 (fun _ => (5 : Fp)) [5] = Except.ok [] ∧
    lookupAssign (assignRow 1 (withoutWitnesses Fp)).assignA 0 =
      some (Value.known 0) :=
  C7_boundary Fp 1 (by decide) (withoutWitnesses Fp)

/-- Claim C8: synthesizing the circuit produced by without_witnesses,
with every private input unknown, succeeds: every advice column receives
an assignment at each of the N rows, the selector is active at each of
those rows, the instance binding at row N-1 is registered, and no error
is returned. -/
theorem C8_without_witnesses (F : Type) [CommRing F] (N : Nat) (hN : 1 ≤ N) :
    ∃ grid : SynthGrid F, synthesize N (withoutWitnesses F) = Except.ok grid ∧
      (∀ i : Fin 3, (grid.region.adviceCol i).map Prod.fst = List.range N) ∧
      (∀ r, r < N → grid.region.selOn r = true) ∧
      grid.eqConstraints = [(⟨Col.advice 2, N - 1⟩, ⟨Col.inst, N - 1⟩)] := by
  refine ⟨_, synthesize_ok N hN _, ?_, ?_, rfl⟩
  · intro i
    fin_cases i <;> simp only [assignRow_closed, RegionState.adviceCol] <;>
      exact map_fst_pairs _ _
  · intro r hr
    rw [selOn_assignRow]
    exact decide_eq_true (Or.inr hr)

/-- Witness for claim C8 at N = 4 over the Pasta base field. -/
theorem C8_without_witnesses_witness :
    ∃ grid : SynthGrid Fp,
      synthesize 4 (withoutWitnesses Fp) = Except.ok grid ∧
      (∀ i : Fin 3, (grid.region.adviceCol i).map Prod.fst = List.range 4) ∧
      (∀ r, r < 4 → grid.region.selOn r = true) ∧
      grid.eqConstraints = [(⟨Col.advice 2, 3⟩, ⟨Col.inst, 3⟩)] :=
  C8_without_witnesses Fp 4 (by decide)

/-- Claim C9: the duplicate selector activation at row 0 is harmless:
assign_row produces the same selector predicate, the same advice
assignments and the same returned cell as the variant that enables the
selector exactly once per row, and the checker verdict is unchanged on
every constraint list and public input. -/
theorem C9_selector_idempotent (F : Type) [CommRing F] [DecidableEq F]
    (N : Nat) (hN : 1 ≤ N) (xs : Nat → Value F) :
    (assignRow N xs).selOn = (assignRowOnce N xs).selOn ∧
    (assignRow N xs).assignA = (assignRowOnce N xs).assignA ∧
    (assignRow N xs).assignX = (assignRowOnce N xs).assignX ∧
    (assignRow N xs).assignAccum = (assignRowOnce N xs).assignAccum ∧
    (assignRow N xs).outCell = (assignRowOnce N xs).outCell ∧
    ∀ (eqs : List (Cell × Cell)) (pubs : List F),
      check N ⟨assignRow N xs, eqs⟩ pubs =
        check N ⟨assignRowOnce N xs, eqs⟩ pubs := by
  have hsel : (assignRow N xs).selOn = (assignRowOnce N xs).selOn := by
    funext r
    rw [selOn_assignRow, selOn_assignRowOnce, decide_eq_decide]
    omega
  have hadv : (assignRow N xs).advice = (assignRowOnce N xs).advice := by
    funext i row
    unfold RegionState.advice
    fin_cases i <;>
      simp [RegionState.adviceCol, assignRow_closed, assignRowOnce_closed]
  refine ⟨hsel, ?_, ?_, ?_, ?_, ?_⟩
  · rw [assignRow_closed, assignRowOnce_closed]
  · rw [assignRow_closed, assignRowOnce_closed]
  · rw [assignRow_closed, assignRowOnce_closed]
  · rw [assignRow_closed, assignRowOnce_closed]
  · intro eqs pubs
    show checkGates N (assignRow N xs).advice (assignRow N xs).selOn ++
        checkEqualities (assignRow N xs).advice pubs eqs =
      checkGates N (assignRowOnce N xs).advice (assignRowOnce N xs).selOn ++
        checkEqualities (assignRowOnce N xs).advice pubs eqs
    rw [hsel, hadv]

/-- Witness for claim C9 at N = 1 with all-unknown private inputs. -/
theorem C9_selector_idempotent_witness :
    (assignRow 1 (withoutWitnesses Fp)).selOn =
      (assignRowOnce 1 (withoutWitnesses Fp)).selOn ∧
    (assignRow 1 (withoutWitnesses Fp)).assignA =
      (assignRowOnce 1 (withoutWitnesses Fp)).assignA ∧
    (assignRow 1 (withoutWitnesses Fp)).assignX =
      (assignRowOnce 1 (withoutWitnesses Fp)).assignX ∧
    (assignRow 1 (withoutWitnesses Fp)).assignAccum =
      (assignRowOnce 1 (withoutWitnesses Fp)).assignAccum ∧
    (assignRow 1 (withoutWitnesses Fp)).outCell =
      (assignRowOnce 1 (withoutWitnesses Fp)).outCell ∧
    ∀ (eqs : List (Cell × Cell)) (pubs : List Fp),
      check 1 ⟨assignRow 1 (withoutWitnesses Fp), eqs⟩ pubs =
        check 1 ⟨assignRowOnce 1 (withoutWitnesses Fp), eqs⟩ pubs :=
  C9_selector_idempotent Fp 1 (by decide) (withoutWitnesses Fp)

/-- Counterexample to claim C10: for N = 0 synthesize does return a
result instead of failing inside expose_public: assign_row leaves its
output cell as the synthesis error, which synthesize propagates, so
expose_public and its underflowing row index are never evaluated. -/
theorem C10_counterexample :
    synthesize 0 (withoutWitnesses Fp) = Except.error Error.Synthesis := rfl

/-- Claim C10 amended: for N = 0 the interface still fails, but the
failure of synthesize differs from the claim: make_circuit fails with
the out-of-bounds index on the empty public vector, while synthesize
returns the synthesis error propagated from assign_row without reaching
expose_public; every stated correctness property carries the
precondition that N is at least 1. -/
theorem C10_N_zero_behavior :
    makeCircuit 0 (fun _ => 1) 16 = none ∧
    makeOuts 0 (16 : Fp) = none ∧
    synthesize 0 (withoutWitnesses Fp) = Except.error Error.Synthesis :=
  ⟨rfl, rfl, rfl⟩

end ArraySum
